import Mathlib

/-!
Verification of the price-comparison core of `streamlit_app.py`:
the numeric normalizer (`parse_price`), the extraction cascade
(`extract_price` / `find_price_in_html`), the fetch-with-retry protocol
(`fetch_price`), the batch driver (`compare_prices`) and the analysis
step (`analyze_results`).

Embedding conventions:
* Python floats are idealized as rationals (`ℚ`); every price literal in
  the claims is exactly representable this way.
* Python exceptions are made explicit with `Except PyError`; a Python
  function that can raise is embedded as a function into `Except`.
* The BeautifulSoup document is embedded as a query view (`Doc`): one
  field per distinct `soup.find` query performed by the source, holding
  exactly what that query would return on the parsed page.
* `\d` of the Python regex is modelled as an ASCII digit, and network
  responses are supplied as oracle parameters.
-/

namespace PrijsVergelijker

/-- Kinds of Python exception relevant to the embedded code paths. -/
inductive PyError
  | typeError
  | indexError
  | keyError
  deriving DecidableEq, Repr

/-- Value of an ASCII digit run, most significant first. -/
def digitsToNat (cs : List Char) : Nat :=
  cs.foldl (fun a c => 10 * a + (c.toNat - 48)) 0

/-- Python `float()` applied to a string known to consist only of digits
and periods (which is all `parse_price` can feed it): it succeeds iff the
string has at least one digit and at most one period, and then denotes
integer part plus fractional part. -/
def pyFloat (cs : List Char) : Option ℚ :=
  if cs.any (fun c => !(c.isDigit || c == '.')) then none
  else if 2 ≤ cs.count '.' then none
  else if !cs.any (fun c => c.isDigit) then none
  else
    let intPart := cs.takeWhile (fun c => c != '.')
    let fracPart := (cs.dropWhile (fun c => c != '.')).tail
    some ((digitsToNat intPart : ℚ) + (digitsToNat fracPart : ℚ) / 10 ^ fracPart.length)

/-- The two string rewrites of `parse_price` (source lines 94-95):
`re.sub(r'[^\d,.]', '', s)` followed by `replace(',', '.')`. -/
def pyCleanup (s : String) : List Char :=
  (s.toList.filter fun c => c.isDigit || c == ',' || c == '.').map
    (fun c => if c == ',' then '.' else c)

/-- `parse_price` (source lines 93-100): strip everything but digits,
commas and periods, turn commas into periods, parse as a float, and keep
the value only when it is at least `1.01`. -/
def parse_price (s : String) : Option ℚ :=
  match pyFloat (pyCleanup s) with
  | none => none
  | some price => if (101 : ℚ) / 100 ≤ price then some price else none

/-- JSON values, the possible results of a successful `json.loads`. -/
inductive Json
  | null
  | bool (b : Bool)
  | num (q : ℚ)
  | str (s : String)
  | arr (elems : List Json)
  | obj (fields : List (String × Json))

/-- The state of the first `<script type="application/ld+json">` block:
`noString` models a tag whose `.string` is `None` (so `json.loads(None)`
raises `TypeError`), `malformed` a string that raises `JSONDecodeError`,
`parsed j` a string that parses to the JSON value `j`. -/
inductive LdScript
  | noString
  | malformed
  | parsed (j : Json)

/-- A `<meta>` element: its `name=` attribute, `property=` attribute and
`content=` attribute, each possibly absent. -/
structure MetaTag where
  nameAttr : Option String
  propAttr : Option String
  content : Option String

/-- Query view of the parsed page: one field per `soup.find` query that
`extract_price` / `find_price_in_html` performs.
`metas` is the document-order list of `<meta>` elements;
`spanItemprop` the text of the first `<span itemprop="price">`;
`ldScript` the first JSON-LD script block;
`h1Siblings` the texts of the siblings following the first `<h1>`
(`none` when there is no `<h1>`);
`classElems` the document-order elements with a `class` attribute, as
(class list, text) pairs. -/
structure Doc where
  metas : List MetaTag
  spanItemprop : Option String
  ldScript : Option LdScript
  h1Siblings : Option (List String)
  classElems : List (List String × String)

/-- `soup.find("meta", {"name": v})`: first meta whose name attribute is `v`. -/
def findMetaByName (d : Doc) (v : String) : Option MetaTag :=
  d.metas.find? (fun m => m.nameAttr == some v)

/-- `soup.find("meta", {"property": v})`: first meta whose property attribute is `v`. -/
def findMetaByProp (d : Doc) (v : String) : Option MetaTag :=
  d.metas.find? (fun m => m.propAttr == some v)

/-- `parse_price(meta_price.get("content"))` (source line 47): the
`content` attribute may be absent, in which case `re.sub` receives `None`
and raises `TypeError`. -/
def metaContentParse (m : MetaTag) : Except PyError (Option ℚ) :=
  match m.content with
  | some c => .ok (parse_price c)
  | none => .error .typeError

/-- Contiguous-substring test, Python `needle in hay` on strings (the
empty needle is contained in everything). -/
def containsRun (needle : List Char) : List Char → Bool
  | [] => needle.isEmpty
  | c :: rest => needle.isPrefixOf (c :: rest) || containsRun needle rest

/-- Python `key in j` (membership test): key lookup on dicts, substring
test on strings, element equality on lists, `TypeError` otherwise. -/
def pyContains (key : String) (j : Json) : Except PyError Bool :=
  match j with
  | .obj fields => .ok (fields.any (fun kv => kv.1 == key))
  | .str s => .ok (containsRun key.toList s.toList)
  | .arr elems => .ok (elems.any (fun x => match x with | .str s => s == key | _ => false))
  | _ => .error .typeError

/-- Python `j[key]` with a string key: dict lookup, `TypeError` on any
other type (string and list indices must be integers). -/
def pyIndex (key : String) (j : Json) : Except PyError Json :=
  match j with
  | .obj fields =>
      match fields.find? (fun kv => kv.1 == key) with
      | some kv => .ok kv.2
      | none => .error .keyError
  | _ => .error .typeError

/-- `parse_price` applied to a JSON value: `re.sub` requires a string
argument and raises `TypeError` on numbers, lists, etc. -/
def pyParsePrice : Json → Except PyError (Option ℚ)
  | .str s => .ok (parse_price s)
  | _ => .error .typeError

/-- `data = data[0] if isinstance(data, list)` (source lines 59-60):
`IndexError` on an empty list. -/
def jsonRootReduce (j : Json) : Except PyError Json :=
  match j with
  | .arr [] => .error .indexError
  | .arr (x :: _) => .ok x
  | _ => .ok j

/-- The body of the JSON-LD `try` block after `json.loads` (source lines
59-62): `if "offers" in data and "price" in data["offers"]: return
parse_price(data["offers"]["price"])`.  `some r` means the source
returns `parse_price` result `r`; `none` means control falls off the
`if` and continues past the block; any exception propagates. -/
def jsonLdLookup (j : Json) : Except PyError (Option (Option ℚ)) :=
  match jsonRootReduce j with
  | .error e => .error e
  | .ok data =>
    match pyContains "offers" data with
    | .error e => .error e
    | .ok false => .ok none
    | .ok true =>
      match pyIndex "offers" data with
      | .error e => .error e
      | .ok offers =>
        match pyContains "price" offers with
        | .error e => .error e
        | .ok false => .ok none
        | .ok true =>
          match pyIndex "price" offers with
          | .error e => .error e
          | .ok v =>
            match pyParsePrice v with
            | .error e => .error e
            | .ok r => .ok (some r)

/-- `extract_price_from_element` (source lines 90-91). -/
def extract_price_from_element (text : String) : Option ℚ :=
  parse_price text.trim

/-- The fixed class-name priority list (source line 80). -/
def price_classes : List String :=
  ["price", "product-price", "regular-price", "sales-price", "current-price",
   "woocommerce-Price-amount"]

/-- The positional heuristic (source lines 71-77): up to five siblings
after the first `<h1>`, first successful normalization wins; a sibling
whose text does not normalize falls through to the next sibling. -/
def positionalLookup (d : Doc) : Option ℚ :=
  match d.h1Siblings with
  | some sibs => (sibs.take 5).findSome? extract_price_from_element
  | none => none

/-- The class-name heuristic (source lines 79-86): for each class in
priority order, the first element carrying that class; a found element
whose text does not normalize falls through to the next class. -/
def classLookup (d : Doc) : Option ℚ :=
  price_classes.findSome? fun cls =>
    match d.classElems.find? (fun e => e.1.contains cls) with
    | some e => extract_price_from_element e.2
    | none => none

/-- `find_price_in_html` (source lines 69-88): the positional heuristic,
then the class-name heuristic. -/
def find_price_in_html (d : Doc) : Option ℚ :=
  match positionalLookup d with
  | some price => some price
  | none => classLookup d

/-- `extract_price` (source lines 35-67): meta tags in fixed priority,
then microdata, then JSON-LD (tolerating only `JSONDecodeError`), then
the HTML heuristics.  Note that a *found* meta/microdata/JSON-LD price
source returns the `parse_price` result directly, even when that result
is `None`. -/
def extract_price (d : Doc) : Except PyError (Option ℚ) :=
  match findMetaByName d "twitter:data1" with
  | some m => metaContentParse m
  | none =>
  match findMetaByProp d "og:price:amount" with
  | some m => metaContentParse m
  | none =>
  match findMetaByProp d "product:price:amount" with
  | some m => metaContentParse m
  | none =>
  match d.spanItemprop with
  | some t => .ok (parse_price t)
  | none =>
  match d.ldScript with
  | some .noString => .error .typeError
  | some (.parsed j) =>
      (match jsonLdLookup j with
       | .error e => .error e
       | .ok (some r) => .ok r
       | .ok none => .ok (find_price_in_html d))
  | some .malformed => .ok (find_price_in_html d)
  | none => .ok (find_price_in_html d)

/-- One HTTP response as `fetch_price` observes it: a body on which
`raise_for_status()` does not raise, an error status on which it raises
`HTTPStatusError`, or a transport-level `RequestException` (DNS failure,
connection refused, timeout) raised by `requests.get` itself. -/
inductive HttpResp
  | ok (body : Doc)
  | status (code : Nat)
  | transport (msg : String)

/-- Representative `str(e)` texts for the embedded exceptions. -/
def pyErrorMsg : PyError → String
  | .typeError => "TypeError"
  | .indexError => "list index out of range"
  | .keyError => "KeyError"

/-- Representative `str(e)` text of an `HTTPError` with the given status. -/
def httpErrMsg (code : Nat) : String := toString code ++ " Error"

/-- The fixed baseline header set of `fetch_price` (source line 103). -/
def baseline_headers : List (String × String) :=
  [("User-Agent", "Mozilla/5.0 (Windows NT 10.0; Win64; x64) AppleWebKit/537.36 (KHTML, like Gecko) Chrome/91.0.4472.124 Safari/537.36")]

/-- The rotated User-Agent pool (source lines 18-22). -/
def user_agents : List String :=
  ["Mozilla/5.0 (Windows NT 10.0; Win64; x64) AppleWebKit/537.36 (KHTML, like Gecko) Chrome/91.0.4472.124 Safari/537.36",
   "Mozilla/5.0 (Windows NT 10.0; Win64; x64; rv:89.0) Gecko/20100101 Firefox/89.0",
   "Mozilla/5.0 (Macintosh; Intel Mac OS X 10_15_7) AppleWebKit/605.1.15 (KHTML, like Gecko) Version/14.1.1 Safari/605.1.15"]

/-- `get_random_headers` (source lines 17-33); `choice` models the value
drawn by `random.choice`, injected as a parameter. -/
def get_random_headers (choice : Fin 3) : List (String × String) :=
  [("User-Agent", user_agents.getD choice.val ""),
   ("Accept", "text/html,application/xhtml+xml,application/xml;q=0.9,image/webp,*/*;q=0.8"),
   ("Accept-Language", "en-US,en;q=0.5"),
   ("Referer", "https://www.google.com/"),
   ("DNT", "1"),
   ("Connection", "keep-alive"),
   ("Upgrade-Insecure-Requests", "1")]

/-- `fetch_price` (source lines 102-125), with the two GET responses
supplied as oracles (`resp2` is consulted only on the 403 retry).
First attempt: any status other than 403 fails immediately; any other
exception, including one raised inside `extract_price`, is caught by the
blanket `except Exception` and reported as an unexpected-error outcome.
Retry after 403: only `RequestException` is caught, so an exception
raised by `extract_price` on the retried body propagates. -/
def fetch_price (resp1 resp2 : HttpResp) : Except PyError (Option ℚ × Option String) :=
  match resp1 with
  | .ok body =>
      match extract_price body with
      | .ok none => .ok (none, some "Price not found on the page or below 1.01 euro")
      | .ok (some price) => .ok (some price, none)
      | .error e => .ok (none, some ("Unexpected error: " ++ pyErrorMsg e))
  | .status code =>
      if code = 403 then
        match resp2 with
        | .ok body =>
            match extract_price body with
            | .ok none => .ok (none, some "Price not found on the page or below 1.01 euro")
            | .ok (some price) => .ok (some price, none)
            | .error e => .error e
        | .status code2 =>
            .ok (none, some ("Error fetching URL (with bypass): " ++ httpErrMsg code2))
        | .transport msg =>
            .ok (none, some ("Error fetching URL (with bypass): " ++ msg))
      else .ok (none, some ("Error fetching URL: " ++ httpErrMsg code))
  | .transport msg => .ok (none, some ("Unexpected error: " ++ msg))

/-- The header sets sent for one URL, in order: the baseline set always,
plus the rotated set exactly when the first response was a 403. -/
def fetch_requests (resp1 : HttpResp) (choice : Fin 3) : List (List (String × String)) :=
  match resp1 with
  | .status code =>
      if code = 403 then [baseline_headers, get_random_headers choice]
      else [baseline_headers]
  | _ => [baseline_headers]

/-- `Product` (source lines 11-15); the timestamp is opaque to the core. -/
structure Product where
  url : String
  competitors : List String
  last_updated : Nat

/-- The two responses a URL will receive, as one oracle. -/
def fetchFor (net : String → HttpResp × HttpResp) (u : String) :
    Except PyError (Option ℚ × Option String) :=
  fetch_price (net u).1 (net u).2

/-- The competitor loop of `compare_prices` (source lines 140-144),
threading the index used for `progress((i + 2) / total_urls)`.  The
second component is the list of progress values emitted; an exception
aborts the loop after the emissions already made. -/
def compLoop (net : String → HttpResp × HttpResp) (total : ℚ) :
    List String → Nat →
    Except PyError (List (String × Option ℚ) × List (String × Option String)) × List ℚ
  | [], _ => (.ok ([], []), [])
  | u :: rest, i =>
      match fetchFor net u with
      | .error e => (.error e, [])
      | .ok (p, err) =>
          match compLoop net total rest (i + 1) with
          | (.error e, tr) => (.error e, (((i + 2 : Nat) : ℚ) / total) :: tr)
          | (.ok (rs, es), tr) =>
              (.ok ((u, p) :: rs, (u, err) :: es), (((i + 2 : Nat) : ℚ) / total) :: tr)

/-- `compare_prices` (source lines 127-147): emit progress `0`, fetch the
own URL, emit `1/total`, fetch each competitor in order emitting
`(i+2)/total`, and finish with a final `1.0`.  The second component is
the emitted progress sequence. -/
def compare_prices (net : String → HttpResp × HttpResp) (product : Product) :
    Except PyError (List (String × Option ℚ) × List (String × Option String)) × List ℚ :=
  let total : ℚ := ((product.competitors.length + 1 : Nat) : ℚ)
  match fetchFor net product.url with
  | .error e => (.error e, [0])
  | .ok (p, err) =>
      match compLoop net total product.competitors 0 with
      | (.error e, tr) => (.error e, 0 :: (1 / total) :: tr)
      | (.ok (rs, es), tr) =>
          (.ok ((product.url, p) :: rs, (product.url, err) :: es),
           0 :: (1 / total) :: (tr ++ [1]))

/-- Per-competitor classification (sign of `own - comp`). -/
inductive CompClass
  | cheaper
  | equal
  | moreExpensive
  deriving DecidableEq, Repr

/-- One competitor line of the analysis: either a fetch failure reported
with its error, or a price with its classification and the raw
`percentage_diff = (own - comp) / comp * 100`. -/
inductive CompLine
  | fetchFailed (err : Option String)
  | priced (p : ℚ) (cls : CompClass) (pct : ℚ)
  deriving DecidableEq, Repr

/-- Aggregate classification over the competitors with a valid price. -/
inductive Aggregate
  | lowestPrice
  | sameOrLower
  | cheaperThan (k n : Nat)
  | higherThanAll
  | unableToCompare
  deriving DecidableEq, Repr

/-- The structured content of the analysis text: either the own-price
failure message (which carries only the own URL and own error), or the
own price with the per-competitor lines and the aggregate verdict. -/
inductive Report
  | unableToFetchOwn (url : String) (err : Option String)
  | analysis (url : String) (own : ℚ) (lines : List CompLine) (agg : Aggregate)
  deriving DecidableEq, Repr

/-- The competitor loop of `analyze_results` (source lines 160-175):
build one line per competitor and accumulate `cheaper_count` and
`equal_count`.  A competitor with a missing price reads `errors[i+1]`,
which raises `IndexError` when the errors list is too short; a priced
competitor does not read it, but the index still advances. -/
def buildLines (own : ℚ) :
    List (String × Option ℚ) → List (String × Option String) →
    Except PyError (List CompLine × Nat × Nat)
  | [], _ => .ok ([], 0, 0)
  | (_, none) :: _, [] => .error .indexError
  | (_, none) :: rest, (_, e) :: erest =>
      match buildLines own rest erest with
      | .error ex => .error ex
      | .ok (ls, c, q) => .ok (.fetchFailed e :: ls, c, q)
  | (_, some p) :: rest, errs =>
      match buildLines own rest errs.tail with
      | .error ex => .error ex
      | .ok (ls, c, q) =>
          if 0 < own - p then
            .ok (.priced p .moreExpensive ((own - p) / p * 100) :: ls, c, q)
          else if own - p < 0 then
            .ok (.priced p .cheaper ((own - p) / p * 100) :: ls, c + 1, q)
          else .ok (.priced p .equal ((own - p) / p * 100) :: ls, c, q + 1)

/-- The Boolean "own is cheaper than this competitor" test that
`cheaper_count` counts (a missing competitor price never counts). -/
def cheaperB (own : ℚ) (x : String × Option ℚ) : Bool :=
  match x.2 with
  | some p => decide (own < p)
  | none => false

/-- The Boolean "own equals this competitor" test that `equal_count`
counts (a missing competitor price never counts). -/
def equalB (own : ℚ) (x : String × Option ℚ) : Bool :=
  match x.2 with
  | some p => decide (own = p)
  | none => false

/-- `analyze_results` (source lines 149-190) as a structured report; the
source renders this report as markdown text, injectively.  `prices[0]`
and `errors[0]` are read unconditionally, so empty inputs raise
`IndexError` (the driver always passes the own URL first). -/
def analyze_results (url : String) (prices : List (String × Option ℚ))
    (errors : List (String × Option String)) : Except PyError Report :=
  match prices, errors with
  | (_, own_price) :: comps, (_, own_error) :: compErrs =>
      match own_price with
      | none => .ok (.unableToFetchOwn url own_error)
      | some own =>
          match buildLines own comps compErrs with
          | .error ex => .error ex
          | .ok (lines, cheaper_count, equal_count) =>
              let valid := comps.countP (fun x => x.2.isSome)
              .ok (.analysis url own lines
                (if 0 < valid then
                  if cheaper_count = valid then .lowestPrice
                  else if cheaper_count + equal_count = valid then .sameOrLower
                  else if 0 < cheaper_count then .cheaperThan cheaper_count valid
                  else .higherThanAll
                 else .unableToCompare))
  | _, _ => .error .indexError

/-- Aggregate classification as the spec words it (section 4.6), for the
refinement part of claim C2: lowest iff own is cheaper than every valid
competitor, else same-or-lower iff cheaper-or-equal to all, else
cheaper-than-K-of-N iff cheaper than at least one, else higher than all;
no valid competitor means unable to compare. -/
def specAggregate (own : ℚ) (valid : List ℚ) : Aggregate :=
  if valid.length = 0 then .unableToCompare
  else if valid.all (fun p => decide (own < p)) then .lowestPrice
  else if valid.all (fun p => decide (own ≤ p)) then .sameOrLower
  else if valid.any (fun p => decide (own < p)) then
    .cheaperThan (valid.countP (fun p => decide (own < p))) valid.length
  else .higherThanAll

/-- One extraction strategy of the cascade: `some r` means the strategy
produced a signal and the cascade stops with result `r` (which may itself
be "no price found"); `none` means no signal, fall through. -/
def metaStrategy (d : Doc) : Option (Except PyError (Option ℚ)) :=
  match findMetaByName d "twitter:data1" with
  | some m => some (metaContentParse m)
  | none =>
  match findMetaByProp d "og:price:amount" with
  | some m => some (metaContentParse m)
  | none =>
  match findMetaByProp d "product:price:amount" with
  | some m => some (metaContentParse m)
  | none => none

/-- Microdata strategy: signals whenever a `<span itemprop="price">`
element exists, with the `parse_price` of its text. -/
def microdataStrategy (d : Doc) : Option (Except PyError (Option ℚ)) :=
  d.spanItemprop.map fun t => .ok (parse_price t)

/-- JSON-LD strategy: a missing script or one whose content raises
`JSONDecodeError`, or a parsed value in which no `offers.price` is found,
is no signal; a present `offers.price` signals with its parse, and the
exceptional paths signal with the exception. -/
def jsonLdStrategy (d : Doc) : Option (Except PyError (Option ℚ)) :=
  match d.ldScript with
  | none => none
  | some .malformed => none
  | some .noString => some (.error .typeError)
  | some (.parsed j) =>
      match jsonLdLookup j with
      | .error e => some (.error e)
      | .ok (some r) => some (.ok r)
      | .ok none => none

/-- Positional-heuristic strategy: signals only on a found price. -/
def positionalStrategy (d : Doc) : Option (Except PyError (Option ℚ)) :=
  (positionalLookup d).map fun p => .ok (some p)

/-- Class-name-heuristic strategy: signals only on a found price. -/
def classNameStrategy (d : Doc) : Option (Except PyError (Option ℚ)) :=
  (classLookup d).map fun p => .ok (some p)

/-- Short-circuiting evaluation of a strategy list: the first signal
wins, and no signal at all means "not found". -/
def runStrategies : List (Doc → Option (Except PyError (Option ℚ))) → Doc →
    Except PyError (Option ℚ)
  | [], _ => .ok none
  | s :: rest, d =>
      match s d with
      | some r => r
      | none => runStrategies rest d

/-- The fixed strategy order of the cascade (spec section 4.4). -/
def extraction_cascade : List (Doc → Option (Except PyError (Option ℚ))) :=
  [metaStrategy, microdataStrategy, jsonLdStrategy, positionalStrategy, classNameStrategy]

/-- `parse_price` succeeds exactly on a successful float parse whose
value reaches the `1.01` threshold, and returns that value unchanged. -/
theorem parse_price_some_iff (s : String) (q : ℚ) :
    parse_price s = some q ↔
      pyFloat (pyCleanup s) = some q ∧ (101 : ℚ) / 100 ≤ q := by
  unfold parse_price
  rcases h : pyFloat (pyCleanup s) with _ | price
  · simp
  · have hred : (match (some price : Option ℚ) with
        | none => (none : Option ℚ)
        | some price => if (101 : ℚ) / 100 ≤ price then some price else none) =
        if (101 : ℚ) / 100 ≤ price then some price else none := rfl
    rw [hred]
    by_cases hq : (101 : ℚ) / 100 ≤ price
    · rw [if_pos hq]
      constructor
      · intro hp
        rcases Option.some.inj hp with rfl
        exact ⟨rfl, hq⟩
      · rintro ⟨h2, _⟩
        exact h2
    · rw [if_neg hq]
      constructor
      · intro hp; exact absurd hp (by simp)
      · rintro ⟨h2, hle⟩
        rcases Option.some.inj h2 with rfl
        exact absurd hle hq

/-- `parse_price` rejects exactly when the float parse fails or the
parsed value is below the `1.01` threshold. -/
theorem parse_price_none_iff (s : String) :
    parse_price s = none ↔
      pyFloat (pyCleanup s) = none ∨
        ∃ q, pyFloat (pyCleanup s) = some q ∧ q < 101 / 100 := by
  unfold parse_price
  rcases h : pyFloat (pyCleanup s) with _ | price
  · simp
  · have hred : (match (some price : Option ℚ) with
        | none => (none : Option ℚ)
        | some price => if (101 : ℚ) / 100 ≤ price then some price else none) =
        if (101 : ℚ) / 100 ≤ price then some price else none := rfl
    rw [hred]
    by_cases hq : (101 : ℚ) / 100 ≤ price
    · rw [if_pos hq]
      constructor
      · intro hp; exact absurd hp (by simp)
      · rintro (hp | ⟨q2, h2, hlt⟩)
        · exact absurd hp (by simp)
        · rcases Option.some.inj h2 with rfl
          exact absurd hlt (not_lt.mpr hq)
    · rw [if_neg hq]
      exact ⟨fun _ => Or.inr ⟨price, rfl, not_le.mp hq⟩, fun _ => rfl⟩

/-- C4. The Numeric Normalizer strips every character that is not a
digit, comma or period, replaces commas with periods and parses the
result as a decimal number; it returns `none` exactly when that parse
fails or the parsed value is below `1.01`, and otherwise the parsed
value unchanged (no upper bound). The quoted examples evaluate as the
claim states. Determinism and freedom from side effects hold because
`parse_price` is a pure function of its argument. -/
theorem C4_normalizer_spec :
    parse_price "19,99" = some (1999 / 100) ∧
    parse_price "1.00" = none ∧
    parse_price "1.01" = some (101 / 100) ∧
    parse_price "abc" = none ∧
    (∀ s : String,
      (parse_price s = none ↔
        pyFloat (pyCleanup s) = none ∨
          ∃ q, pyFloat (pyCleanup s) = some q ∧ q < 101 / 100) ∧
      (∀ q : ℚ, parse_price s = some q ↔
        pyFloat (pyCleanup s) = some q ∧ (101 : ℚ) / 100 ≤ q)) :=
  ⟨by with_unfolding_all rfl, by with_unfolding_all rfl,
   by with_unfolding_all rfl, by with_unfolding_all rfl,
   fun s => ⟨parse_price_none_iff s, fun q => parse_price_some_iff s q⟩⟩

/-- Evaluation of `extract_price` when the `twitter:data1` meta query hits. -/
theorem extract_price_twitter_hit (d : Doc) (m : MetaTag)
    (h1 : findMetaByName d "twitter:data1" = some m) :
    extract_price d = metaContentParse m := by
  unfold extract_price
  rw [h1]

/-- Evaluation of `extract_price` when only the `og:price:amount` meta query hits. -/
theorem extract_price_og_hit (d : Doc) (m : MetaTag)
    (h1 : findMetaByName d "twitter:data1" = none)
    (h2 : findMetaByProp d "og:price:amount" = some m) :
    extract_price d = metaContentParse m := by
  unfold extract_price
  rw [h1, h2]

/-- Evaluation of `extract_price` when only the `product:price:amount`
meta query hits. -/
theorem extract_price_product_hit (d : Doc) (m : MetaTag)
    (h1 : findMetaByName d "twitter:data1" = none)
    (h2 : findMetaByProp d "og:price:amount" = none)
    (h3 : findMetaByProp d "product:price:amount" = some m) :
    extract_price d = metaContentParse m := by
  unfold extract_price
  rw [h1, h2, h3]

/-- Evaluation of `extract_price` when no meta query hits and the
microdata query hits. -/
theorem extract_price_micro_hit (d : Doc) (t : String)
    (h1 : findMetaByName d "twitter:data1" = none)
    (h2 : findMetaByProp d "og:price:amount" = none)
    (h3 : findMetaByProp d "product:price:amount" = none)
    (h4 : d.spanItemprop = some t) :
    extract_price d = .ok (parse_price t) := by
  unfold extract_price
  rw [h1, h2, h3, h4]

/-- Evaluation of `extract_price` when every structured query misses:
only the JSON-LD dispatch remains. -/
theorem extract_price_structured_miss (d : Doc)
    (h1 : findMetaByName d "twitter:data1" = none)
    (h2 : findMetaByProp d "og:price:amount" = none)
    (h3 : findMetaByProp d "product:price:amount" = none)
    (h4 : d.spanItemprop = none) :
    extract_price d =
      match d.ldScript with
      | some .noString => .error .typeError
      | some (.parsed j) =>
          (match jsonLdLookup j with
           | .error e => .error e
           | .ok (some r) => .ok r
           | .ok none => .ok (find_price_in_html d))
      | some .malformed => .ok (find_price_in_html d)
      | none => .ok (find_price_in_html d) := by
  unfold extract_price
  rw [h1, h2, h3, h4]

/-- A signal from the meta strategy decides the whole cascade. -/
theorem runStrategies_meta_signal (d : Doc) (r : Except PyError (Option ℚ))
    (hm : metaStrategy d = some r) :
    runStrategies extraction_cascade d = r := by
  unfold extraction_cascade
  simp only [runStrategies, hm]

/-- A signal from the microdata strategy decides the cascade when the
meta strategy gave none. -/
theorem runStrategies_micro_signal (d : Doc) (r : Except PyError (Option ℚ))
    (hmeta : metaStrategy d = none) (hm : microdataStrategy d = some r) :
    runStrategies extraction_cascade d = r := by
  unfold extraction_cascade
  simp only [runStrategies, hmeta, hm]

/-- A signal from the JSON-LD strategy decides the cascade when the meta
and microdata strategies gave none. -/
theorem runStrategies_ld_signal (d : Doc) (r : Except PyError (Option ℚ))
    (hmeta : metaStrategy d = none) (hmicro : microdataStrategy d = none)
    (hld : jsonLdStrategy d = some r) :
    runStrategies extraction_cascade d = r := by
  unfold extraction_cascade
  simp only [runStrategies, hmeta, hmicro, hld]

/-- No structured signal: the cascade reduces to `find_price_in_html`. -/
theorem runStrategies_no_structured_signal (d : Doc)
    (hmeta : metaStrategy d = none) (hmicro : microdataStrategy d = none)
    (hld : jsonLdStrategy d = none) :
    runStrategies extraction_cascade d = .ok (find_price_in_html d) := by
  unfold extraction_cascade
  simp only [runStrategies, hmeta, hmicro, hld]
  rcases hp : positionalLookup d with _ | p
  · rcases hc : classLookup d with _ | p2 <;>
      simp [positionalStrategy, classNameStrategy, find_price_in_html, hp, hc]
  · simp [positionalStrategy, find_price_in_html, hp]

/-- `extract_price` is exactly the short-circuiting run of the five
strategies in their fixed order. -/
theorem extract_eq_cascade (d : Doc) :
    extract_price d = runStrategies extraction_cascade d := by
  rcases h1 : findMetaByName d "twitter:data1" with _ | m1
  case some =>
    rw [extract_price_twitter_hit d m1 h1,
      runStrategies_meta_signal d _ (by unfold metaStrategy; rw [h1])]
  rcases h2 : findMetaByProp d "og:price:amount" with _ | m2
  case some =>
    rw [extract_price_og_hit d m2 h1 h2,
      runStrategies_meta_signal d _
        (show metaStrategy d = some (metaContentParse m2) by
          unfold metaStrategy; simp only [h1, h2])]
  rcases h3 : findMetaByProp d "product:price:amount" with _ | m3
  case some =>
    rw [extract_price_product_hit d m3 h1 h2 h3,
      runStrategies_meta_signal d _
        (show metaStrategy d = some (metaContentParse m3) by
          unfold metaStrategy; simp only [h1, h2, h3])]
  have hmeta : metaStrategy d = none := by
    unfold metaStrategy
    simp only [h1, h2, h3]
  rcases h4 : d.spanItemprop with _ | t
  case some =>
    rw [extract_price_micro_hit d t h1 h2 h3 h4,
      runStrategies_micro_signal d _ hmeta
        (by unfold microdataStrategy; rw [h4]; rfl)]
  have hmicro : microdataStrategy d = none := by
    unfold microdataStrategy
    rw [h4]
    rfl
  rw [extract_price_structured_miss d h1 h2 h3 h4]
  rcases h5 : d.ldScript with _ | ls
  · rw [runStrategies_no_structured_signal d hmeta hmicro
      (by unfold jsonLdStrategy; rw [h5])]
  · cases ls with
    | noString =>
        rw [runStrategies_ld_signal d _ hmeta hmicro
          (show jsonLdStrategy d = some (.error .typeError) by
            unfold jsonLdStrategy; rw [h5])]
    | malformed =>
        rw [runStrategies_no_structured_signal d hmeta hmicro
          (by unfold jsonLdStrategy; rw [h5])]
    | parsed j =>
        rcases h6 : jsonLdLookup j with e | r
        · rw [runStrategies_ld_signal d _ hmeta hmicro
            (show jsonLdStrategy d = some (.error e) by
              unfold jsonLdStrategy; simp only [h5, h6])]
          simp only [h5, h6]
        · rcases r with _ | r0
          · rw [runStrategies_no_structured_signal d hmeta hmicro
              (by unfold jsonLdStrategy; simp only [h5, h6])]
            simp only [h5, h6]
          · rw [runStrategies_ld_signal d _ hmeta hmicro
              (show jsonLdStrategy d = some (.ok r0) by
                unfold jsonLdStrategy; simp only [h5, h6])]
            simp only [h5, h6]

/-- C5. `extract_price` evaluates its strategies in the strict fixed
order meta tags (`twitter:data1`, then `og:price:amount`, then
`product:price:amount`) → microdata → JSON-LD script → positional
heuristic → class-name heuristic, returning the first signal and never
combining strategies; in particular a valid `twitter:data1` meta price
wins over any conflicting class-based price element. -/
theorem C5_cascade_order :
    (∀ d, extract_price d = runStrategies extraction_cascade d) ∧
    (∀ d m c q, findMetaByName d "twitter:data1" = some m → m.content = some c →
      parse_price c = some q → extract_price d = .ok (some q)) := by
  refine ⟨extract_eq_cascade, fun d m c q h1 h2 h3 => ?_⟩
  rw [extract_price_twitter_hit d m h1]
  unfold metaContentParse
  rw [h2]
  show Except.ok (parse_price c) = _
  rw [h3]

/-- C5 witness: a document carrying both a valid `twitter:data1` meta
price `19,99` and a conflicting class-based `price` element `9.99`
extracts the meta value. -/
theorem C5_witness :
    findMetaByName ⟨[⟨some "twitter:data1", none, some "19,99"⟩], none, none, none,
        [(["price"], "9.99")]⟩ "twitter:data1" =
      some ⟨some "twitter:data1", none, some "19,99"⟩ ∧
    extract_price ⟨[⟨some "twitter:data1", none, some "19,99"⟩], none, none, none,
        [(["price"], "9.99")]⟩ = .ok (some (1999 / 100)) :=
  ⟨by with_unfolding_all rfl,
   C5_cascade_order.2 _ _ "19,99" _ (by with_unfolding_all rfl) rfl
     (by with_unfolding_all rfl)⟩

/-- C1 counterexample: a document whose `twitter:data1` meta content is
`"abc"` (rejected by the normalizer) and which also carries a perfectly
extractable class-based price `19.99`.  The claim says the cascade falls
through to the remaining sources and the heuristic extractor; the code
instead stops with "not found" — `extract_price` returns `.ok none`
although `find_price_in_html` would have produced the price. -/
theorem C1_counterexample :
    extract_price ⟨[⟨some "twitter:data1", none, some "abc"⟩], none, none, none,
        [(["price"], "19.99")]⟩ = .ok none ∧
    find_price_in_html ⟨[⟨some "twitter:data1", none, some "abc"⟩], none, none, none,
        [(["price"], "19.99")]⟩ = some (1999 / 100) :=
  ⟨by with_unfolding_all rfl, by with_unfolding_all rfl⟩

/-- C1 amended: when any structured price source is *found* but its
payload is rejected by the normalizer, `extract_price` stops the cascade
and returns "not found" immediately — for each of the three meta sources
(`twitter:data1`, `og:price:amount`, `product:price:amount`, the first
match in their priority order), for the microdata span, and for a
JSON-LD block whose `offers.price` is present but rejected
(`jsonLdLookup = .ok (some none)`).  Fallthrough to the heuristic
extractor happens only when every structured source is absent or, for
JSON-LD, when the script is unparseable or lacks `offers.price` — in
exactly those cases `extract_price` returns the heuristic result
`find_price_in_html`. -/
theorem C1_rejected_source_stops_cascade :
    (∀ d m c, findMetaByName d "twitter:data1" = some m → m.content = some c →
      parse_price c = none → extract_price d = .ok none) ∧
    (∀ d m c, findMetaByName d "twitter:data1" = none →
      findMetaByProp d "og:price:amount" = some m → m.content = some c →
      parse_price c = none → extract_price d = .ok none) ∧
    (∀ d m c, findMetaByName d "twitter:data1" = none →
      findMetaByProp d "og:price:amount" = none →
      findMetaByProp d "product:price:amount" = some m → m.content = some c →
      parse_price c = none → extract_price d = .ok none) ∧
    (∀ d t, findMetaByName d "twitter:data1" = none →
      findMetaByProp d "og:price:amount" = none →
      findMetaByProp d "product:price:amount" = none →
      d.spanItemprop = some t → parse_price t = none →
      extract_price d = .ok none) ∧
    (∀ d j, findMetaByName d "twitter:data1" = none →
      findMetaByProp d "og:price:amount" = none →
      findMetaByProp d "product:price:amount" = none →
      d.spanItemprop = none → d.ldScript = some (.parsed j) →
      jsonLdLookup j = .ok (some none) → extract_price d = .ok none) ∧
    (∀ d, findMetaByName d "twitter:data1" = none →
      findMetaByProp d "og:price:amount" = none →
      findMetaByProp d "product:price:amount" = none →
      d.spanItemprop = none →
      (d.ldScript = none ∨ d.ldScript = some .malformed ∨
        ∃ j, d.ldScript = some (.parsed j) ∧ jsonLdLookup j = .ok none) →
      extract_price d = .ok (find_price_in_html d)) := by
  refine ⟨?_, ?_, ?_, ?_, ?_, ?_⟩
  · intro d m c h1 h2 h3
    rw [extract_price_twitter_hit d m h1]
    unfold metaContentParse
    rw [h2]
    show Except.ok (parse_price c) = _
    rw [h3]
  · intro d m c h1 h2 h3 h4
    rw [extract_price_og_hit d m h1 h2]
    unfold metaContentParse
    rw [h3]
    show Except.ok (parse_price c) = _
    rw [h4]
  · intro d m c h1 h2 h3 h4 h5
    rw [extract_price_product_hit d m h1 h2 h3]
    unfold metaContentParse
    rw [h4]
    show Except.ok (parse_price c) = _
    rw [h5]
  · intro d t h1 h2 h3 h4 h5
    rw [extract_price_micro_hit d t h1 h2 h3 h4, h5]
  · intro d j h1 h2 h3 h4 h5 h6
    rw [extract_price_structured_miss d h1 h2 h3 h4]
    simp only [h5, h6]
  · intro d h1 h2 h3 h4 hld
    rw [extract_price_structured_miss d h1 h2 h3 h4]
    rcases hld with h5 | h5 | ⟨j, h5, h6⟩
    · simp only [h5]
    · simp only [h5]
    · simp only [h5, h6]

/-- C1 witness: the amended behaviour at a concrete document (rejected
`twitter:data1` content `"abc"` next to a class-based `19.99`). -/
theorem C1_witness :
    parse_price "abc" = none ∧
    extract_price ⟨[⟨some "twitter:data1", none, some "abc"⟩], none, none, none,
        [(["price"], "19.99")]⟩ = .ok none :=
  ⟨by with_unfolding_all rfl,
   C1_rejected_source_stops_cascade.1 _ ⟨some "twitter:data1", none, some "abc"⟩ "abc"
     (by with_unfolding_all rfl) rfl (by with_unfolding_all rfl)⟩

/-- C8 counterexample: a JSON-LD script that parses to the empty array
`[]` — a structured-data block that "parses to a value without an
extractable offers.price".  The claim says `extract_price` skips it and
falls through to the heuristic extractor; instead `data[0]` raises
`IndexError` (uncaught, since only `JSONDecodeError` is handled), even
though the heuristic would have found the class-based price `19.99`. -/
theorem C8_counterexample :
    extract_price ⟨[], none, some (.parsed (.arr [])), none, [(["price"], "19.99")]⟩ =
      .error .indexError ∧
    find_price_in_html ⟨[], none, some (.parsed (.arr [])), none, [(["price"], "19.99")]⟩ =
      some (1999 / 100) :=
  ⟨by with_unfolding_all rfl, by with_unfolding_all rfl⟩

/-- C8 amended: a JSON-LD block whose content fails to parse as JSON is
skipped, with fallthrough — extraction behaves exactly as if the block
were absent; likewise a parsed object root that has no `offers` key.
(A parsed empty-array root, or a non-container root, instead raises an
uncaught exception — see the counterexample.) -/
theorem C8_malformed_ld_falls_through :
    (∀ ms sip h1s ces,
      extract_price ⟨ms, sip, some .malformed, h1s, ces⟩ =
        extract_price ⟨ms, sip, none, h1s, ces⟩) ∧
    (∀ ms sip fields h1s ces,
      fields.any (fun kv => kv.1 == "offers") = false →
      extract_price ⟨ms, sip, some (.parsed (.obj fields)), h1s, ces⟩ =
        extract_price ⟨ms, sip, none, h1s, ces⟩) := by
  constructor
  · intro ms sip h1s ces
    rcases h1 : findMetaByName ⟨ms, sip, some .malformed, h1s, ces⟩ "twitter:data1"
      with _ | m1
    case some =>
      rw [extract_price_twitter_hit ⟨ms, sip, some .malformed, h1s, ces⟩ m1 h1,
        extract_price_twitter_hit ⟨ms, sip, none, h1s, ces⟩ m1 h1]
    rcases h2 : findMetaByProp ⟨ms, sip, some .malformed, h1s, ces⟩ "og:price:amount"
      with _ | m2
    case some =>
      rw [extract_price_og_hit ⟨ms, sip, some .malformed, h1s, ces⟩ m2 h1 h2,
        extract_price_og_hit ⟨ms, sip, none, h1s, ces⟩ m2 h1 h2]
    rcases h3 : findMetaByProp ⟨ms, sip, some .malformed, h1s, ces⟩ "product:price:amount"
      with _ | m3
    case some =>
      rw [extract_price_product_hit ⟨ms, sip, some .malformed, h1s, ces⟩ m3 h1 h2 h3,
        extract_price_product_hit ⟨ms, sip, none, h1s, ces⟩ m3 h1 h2 h3]
    cases sip with
    | some t =>
        rw [extract_price_micro_hit ⟨ms, some t, some .malformed, h1s, ces⟩ t h1 h2 h3 rfl,
          extract_price_micro_hit ⟨ms, some t, none, h1s, ces⟩ t h1 h2 h3 rfl]
    | none =>
        rw [extract_price_structured_miss ⟨ms, none, some .malformed, h1s, ces⟩ h1 h2 h3 rfl,
          extract_price_structured_miss ⟨ms, none, none, h1s, ces⟩ h1 h2 h3 rfl]
        have hfp : find_price_in_html ⟨ms, none, some .malformed, h1s, ces⟩ =
            find_price_in_html ⟨ms, none, none, h1s, ces⟩ := rfl
        simp [hfp]
  · intro ms sip fields h1s ces hoff
    rcases h1 : findMetaByName ⟨ms, sip, some (.parsed (.obj fields)), h1s, ces⟩
      "twitter:data1" with _ | m1
    case some =>
      rw [extract_price_twitter_hit ⟨ms, sip, some (.parsed (.obj fields)), h1s, ces⟩ m1 h1,
        extract_price_twitter_hit ⟨ms, sip, none, h1s, ces⟩ m1 h1]
    rcases h2 : findMetaByProp ⟨ms, sip, some (.parsed (.obj fields)), h1s, ces⟩
      "og:price:amount" with _ | m2
    case some =>
      rw [extract_price_og_hit ⟨ms, sip, some (.parsed (.obj fields)), h1s, ces⟩ m2 h1 h2,
        extract_price_og_hit ⟨ms, sip, none, h1s, ces⟩ m2 h1 h2]
    rcases h3 : findMetaByProp ⟨ms, sip, some (.parsed (.obj fields)), h1s, ces⟩
      "product:price:amount" with _ | m3
    case some =>
      rw [extract_price_product_hit ⟨ms, sip, some (.parsed (.obj fields)), h1s, ces⟩
          m3 h1 h2 h3,
        extract_price_product_hit ⟨ms, sip, none, h1s, ces⟩ m3 h1 h2 h3]
    have hlook : jsonLdLookup (.obj fields) = .ok none := by
      simp only [jsonLdLookup, jsonRootReduce, pyContains, hoff]
    cases sip with
    | some t =>
        rw [extract_price_micro_hit ⟨ms, some t, some (.parsed (.obj fields)), h1s, ces⟩
            t h1 h2 h3 rfl,
          extract_price_micro_hit ⟨ms, some t, none, h1s, ces⟩ t h1 h2 h3 rfl]
    | none =>
        rw [extract_price_structured_miss ⟨ms, none, some (.parsed (.obj fields)), h1s, ces⟩
            h1 h2 h3 rfl,
          extract_price_structured_miss ⟨ms, none, none, h1s, ces⟩ h1 h2 h3 rfl]
        have hfp : find_price_in_html ⟨ms, none, some (.parsed (.obj fields)), h1s, ces⟩ =
            find_price_in_html ⟨ms, none, none, h1s, ces⟩ := rfl
        simp [hlook, hfp]

/-- C8 witness: the amended fallthrough at a concrete document — a
malformed JSON-LD block next to a class-based `19.99` behaves exactly as
if the block were absent. -/
theorem C8_witness :
    extract_price ⟨[], none, some .malformed, none, [(["price"], "19.99")]⟩ =
      extract_price ⟨[], none, none, none, [(["price"], "19.99")]⟩ ∧
    extract_price ⟨[], none, none, none, [(["price"], "19.99")]⟩ =
      .ok (some (1999 / 100)) :=
  ⟨C8_malformed_ld_falls_through.1 [] none none [(["price"], "19.99")],
   by with_unfolding_all rfl⟩

/-- Evaluation of `fetch_price` on a first response whose status does
not raise: the blanket `except Exception` turns any extraction exception
into an unexpected-error outcome. -/
theorem fetch_price_ok_eval (body : Doc) (r2 : HttpResp) :
    fetch_price (.ok body) r2 =
      match extract_price body with
      | .ok none => .ok (none, some "Price not found on the page or below 1.01 euro")
      | .ok (some price) => .ok (some price, none)
      | .error e => .ok (none, some ("Unexpected error: " ++ pyErrorMsg e)) := rfl

/-- Evaluation of `fetch_price` on a first response with an error
status: 403 triggers the retry (where only `RequestException` is caught,
so an extraction exception propagates), everything else fails at once. -/
theorem fetch_price_status_eval (code : Nat) (r2 : HttpResp) :
    fetch_price (.status code) r2 =
      if code = 403 then
        match r2 with
        | .ok body =>
            match extract_price body with
            | .ok none => .ok (none, some "Price not found on the page or below 1.01 euro")
            | .ok (some price) => .ok (some price, none)
            | .error e => .error e
        | .status code2 =>
            .ok (none, some ("Error fetching URL (with bypass): " ++ httpErrMsg code2))
        | .transport msg =>
            .ok (none, some ("Error fetching URL (with bypass): " ++ msg))
      else .ok (none, some ("Error fetching URL: " ++ httpErrMsg code)) := rfl

/-- Evaluation of `fetch_price` on a transport failure of the first GET. -/
theorem fetch_price_transport_eval (msg : String) (r2 : HttpResp) :
    fetch_price (.transport msg) r2 = .ok (none, some ("Unexpected error: " ++ msg)) := rfl

/-- Evaluation of the 403 retry when the retried GET succeeds: the
extraction result decides the outcome, and an extraction exception
propagates (the inner handler catches only `RequestException`). -/
theorem fetch_price_retry_ok_eval (body : Doc) :
    fetch_price (.status 403) (.ok body) =
      match extract_price body with
      | .ok none => .ok (none, some "Price not found on the page or below 1.01 euro")
      | .ok (some price) => .ok (some price, none)
      | .error e => .error e := by
  rw [fetch_price_status_eval, if_pos rfl]

/-- Evaluation of the 403 retry when the retried GET again has an error
status (for instance a second 403): reported as the bypass error. -/
theorem fetch_price_retry_status_eval (code2 : Nat) :
    fetch_price (.status 403) (.status code2) =
      .ok (none, some ("Error fetching URL (with bypass): " ++ httpErrMsg code2)) := by
  rw [fetch_price_status_eval, if_pos rfl]

/-- Evaluation of the 403 retry on a transport failure of the retried
GET: reported as the bypass error. -/
theorem fetch_price_retry_transport_eval (msg : String) :
    fetch_price (.status 403) (.transport msg) =
      .ok (none, some ("Error fetching URL (with bypass): " ++ msg)) := by
  rw [fetch_price_status_eval, if_pos rfl]

/-- Evaluation of `fetch_price` on a non-403 error status: immediate
HTTP-error outcome, no retry. -/
theorem fetch_price_other_status_eval (code : Nat) (r2 : HttpResp) (hc : code ≠ 403) :
    fetch_price (.status code) r2 =
      .ok (none, some ("Error fetching URL: " ++ httpErrMsg code)) := by
  rw [fetch_price_status_eval, if_neg hc]

/-- Any price produced by `parse_price` is at least the threshold. -/
theorem parse_price_ge (s : String) (q : ℚ) (h : parse_price s = some q) :
    (101 : ℚ) / 100 ≤ q :=
  ((parse_price_some_iff s q).mp h).2

/-- Any price produced by a `findSome?` over price-bounded candidates is
at least the threshold. -/
theorem findSome?_ge {α : Type} (f : α → Option ℚ)
    (hf : ∀ a q, f a = some q → (101 : ℚ) / 100 ≤ q)
    (l : List α) (q : ℚ) (h : l.findSome? f = some q) : (101 : ℚ) / 100 ≤ q := by
  rcases List.exists_of_findSome?_eq_some h with ⟨a, _, ha⟩
  exact hf a q ha

/-- Any price produced by the positional heuristic is at least the threshold. -/
theorem positionalLookup_ge (d : Doc) (q : ℚ) (h : positionalLookup d = some q) :
    (101 : ℚ) / 100 ≤ q := by
  unfold positionalLookup at h
  rcases hs : d.h1Siblings with _ | sibs
  · rw [hs] at h; exact Option.noConfusion h
  · rw [hs] at h
    exact findSome?_ge extract_price_from_element
      (fun t q2 ht => parse_price_ge t.trim q2 ht) (sibs.take 5) q h

/-- Any price produced by the class-name heuristic is at least the threshold. -/
theorem classLookup_ge (d : Doc) (q : ℚ) (h : classLookup d = some q) :
    (101 : ℚ) / 100 ≤ q := by
  unfold classLookup at h
  refine findSome?_ge _ (fun cls q2 hc => ?_) price_classes q h
  rcases he : d.classElems.find? (fun e => e.1.contains cls) with _ | e0
  · rw [he] at hc; exact Option.noConfusion hc
  · rw [he] at hc; exact parse_price_ge _ q2 hc

/-- Any price produced by the heuristic extractor is at least the threshold. -/
theorem find_price_in_html_ge (d : Doc) (q : ℚ)
    (h : find_price_in_html d = some q) : (101 : ℚ) / 100 ≤ q := by
  unfold find_price_in_html at h
  rcases hp : positionalLookup d with _ | p
  · rw [hp] at h; exact classLookup_ge d q h
  · rw [hp] at h
    rcases Option.some.inj h with rfl
    exact positionalLookup_ge d p hp

/-- Any price accepted from a found meta tag is at least the threshold. -/
theorem metaContentParse_ge (m : MetaTag) (q : ℚ)
    (h : metaContentParse m = .ok (some q)) : (101 : ℚ) / 100 ≤ q := by
  unfold metaContentParse at h
  rcases hc : m.content with _ | c
  · rw [hc] at h; exact Except.noConfusion h
  · rw [hc] at h
    exact parse_price_ge c q (Except.ok.inj h)

/-- Any price accepted from the JSON-LD block is at least the threshold. -/
theorem jsonLdLookup_ge (j : Json) (q : ℚ)
    (h : jsonLdLookup j = .ok (some (some q))) : (101 : ℚ) / 100 ≤ q := by
  rcases hr : jsonRootReduce j with e | data
  · rw [show jsonLdLookup j = .error e by
      unfold jsonLdLookup; simp only [hr]] at h
    exact Except.noConfusion h
  · rcases hc : pyContains "offers" data with e | b
    · rw [show jsonLdLookup j = .error e by
        unfold jsonLdLookup; simp only [hr, hc]] at h
      exact Except.noConfusion h
    · cases b with
      | false =>
          rw [show jsonLdLookup j = .ok none by
            unfold jsonLdLookup; simp only [hr, hc]] at h
          exact Option.noConfusion (Except.ok.inj h)
      | true =>
          rcases ho : pyIndex "offers" data with e | offers
          · rw [show jsonLdLookup j = .error e by
              unfold jsonLdLookup; simp only [hr, hc, ho]] at h
            exact Except.noConfusion h
          · rcases hc2 : pyContains "price" offers with e | b2
            · rw [show jsonLdLookup j = .error e by
                unfold jsonLdLookup; simp only [hr, hc, ho, hc2]] at h
              exact Except.noConfusion h
            · cases b2 with
              | false =>
                  rw [show jsonLdLookup j = .ok none by
                    unfold jsonLdLookup; simp only [hr, hc, ho, hc2]] at h
                  exact Option.noConfusion (Except.ok.inj h)
              | true =>
                  rcases hv : pyIndex "price" offers with e | v
                  · rw [show jsonLdLookup j = .error e by
                      unfold jsonLdLookup; simp only [hr, hc, ho, hc2, hv]] at h
                    exact Except.noConfusion h
                  · rcases hpp : pyParsePrice v with e | r
                    · rw [show jsonLdLookup j = .error e by
                        unfold jsonLdLookup; simp only [hr, hc, ho, hc2, hv, hpp]] at h
                      exact Except.noConfusion h
                    · rw [show jsonLdLookup j = .ok (some r) by
                        unfold jsonLdLookup; simp only [hr, hc, ho, hc2, hv, hpp]] at h
                      rcases Option.some.inj (Except.ok.inj h) with rfl
                      cases v with
                      | str s => exact parse_price_ge s q (Except.ok.inj hpp)
                      | null => exact Except.noConfusion hpp
                      | bool b3 => exact Except.noConfusion hpp
                      | num n => exact Except.noConfusion hpp
                      | arr xs => exact Except.noConfusion hpp
                      | obj fs => exact Except.noConfusion hpp

/-- Any price returned by the extraction cascade is at least the threshold. -/
theorem extract_price_ge (d : Doc) (q : ℚ)
    (h : extract_price d = .ok (some q)) : (101 : ℚ) / 100 ≤ q := by
  rcases h1 : findMetaByName d "twitter:data1" with _ | m1
  case some =>
    exact metaContentParse_ge m1 q ((extract_price_twitter_hit d m1 h1) ▸ h)
  rcases h2 : findMetaByProp d "og:price:amount" with _ | m2
  case some =>
    exact metaContentParse_ge m2 q ((extract_price_og_hit d m2 h1 h2) ▸ h)
  rcases h3 : findMetaByProp d "product:price:amount" with _ | m3
  case some =>
    exact metaContentParse_ge m3 q ((extract_price_product_hit d m3 h1 h2 h3) ▸ h)
  rcases h4 : d.spanItemprop with _ | t
  case some =>
    have h5 := (extract_price_micro_hit d t h1 h2 h3 h4) ▸ h
    exact parse_price_ge t q (Except.ok.inj h5)
  rw [extract_price_structured_miss d h1 h2 h3 h4] at h
  rcases h5 : d.ldScript with _ | ls
  · rw [h5] at h
    exact find_price_in_html_ge d q (Except.ok.inj h)
  · cases ls with
    | noString => rw [h5] at h; exact Except.noConfusion h
    | malformed =>
        rw [h5] at h
        exact find_price_in_html_ge d q (Except.ok.inj h)
    | parsed j =>
        simp only [h5] at h
        rcases h6 : jsonLdLookup j with e | r
        · rw [h6] at h; exact Except.noConfusion h
        · rw [h6] at h
          rcases r with _ | r0
          · exact find_price_in_html_ge d q (Except.ok.inj h)
          · rcases Except.ok.inj h with rfl
            exact jsonLdLookup_ge j q h6

/-- C9. Every price `extract_price` returns is a validated amount of at
least `1.01` — never zero and never negative — and consequently every
price carried by a `fetch_price` outcome is nonzero, so the
per-competitor percentage division in the analysis step has a nonzero
divisor. -/
theorem C9_price_lower_bound :
    (∀ d q, extract_price d = .ok (some q) → (101 : ℚ) / 100 ≤ q) ∧
    (∀ r1 r2 p e q, fetch_price r1 r2 = .ok (p, e) → p = some q →
      (101 : ℚ) / 100 ≤ q ∧ q ≠ 0) := by
  have hq0 : (0 : ℚ) < 101 / 100 := by norm_num
  refine ⟨extract_price_ge, fun r1 r2 p e q h hp => ?_⟩
  subst hp
  suffices hle : (101 : ℚ) / 100 ≤ q from
    ⟨hle, ne_of_gt (lt_of_lt_of_le hq0 hle)⟩
  cases r1 with
  | ok body =>
      rw [fetch_price_ok_eval] at h
      rcases hx : extract_price body with e0 | r0
      · rw [hx] at h
        exact Option.noConfusion (congrArg Prod.fst (Except.ok.inj h))
      · rcases r0 with _ | p0
        · rw [hx] at h
          exact Option.noConfusion (congrArg Prod.fst (Except.ok.inj h))
        · rw [hx] at h
          rcases Option.some.inj (congrArg Prod.fst (Except.ok.inj h)) with rfl
          exact extract_price_ge body _ hx
  | status code =>
      by_cases hc : code = 403
      · subst hc
        cases r2 with
        | ok body =>
            rw [fetch_price_retry_ok_eval] at h
            rcases hx : extract_price body with e0 | r0
            · rw [hx] at h; exact Except.noConfusion h
            · rcases r0 with _ | p0
              · rw [hx] at h
                exact Option.noConfusion (congrArg Prod.fst (Except.ok.inj h))
              · rw [hx] at h
                rcases Option.some.inj (congrArg Prod.fst (Except.ok.inj h)) with rfl
                exact extract_price_ge body _ hx
        | status code2 =>
            rw [fetch_price_retry_status_eval] at h
            exact Option.noConfusion (congrArg Prod.fst (Except.ok.inj h))
        | transport msg =>
            rw [fetch_price_retry_transport_eval] at h
            exact Option.noConfusion (congrArg Prod.fst (Except.ok.inj h))
      · rw [fetch_price_other_status_eval code r2 hc] at h
        exact Option.noConfusion (congrArg Prod.fst (Except.ok.inj h))
  | transport msg =>
      rw [fetch_price_transport_eval] at h
      exact Option.noConfusion (congrArg Prod.fst (Except.ok.inj h))

/-- C9 witness: a concrete fetch outcome carrying price `19,99`. -/
theorem C9_witness :
    fetch_price (.ok ⟨[⟨some "twitter:data1", none, some "19,99"⟩], none, none, none, []⟩)
        (.transport "unused") =
      .ok (some (1999 / 100), none) ∧
    ((101 : ℚ) / 100 ≤ 1999 / 100 ∧ (1999 / 100 : ℚ) ≠ 0) :=
  ⟨by with_unfolding_all rfl,
   C9_price_lower_bound.2
     (.ok ⟨[⟨some "twitter:data1", none, some "19,99"⟩], none, none, none, []⟩)
     (.transport "unused") (some (1999 / 100)) none (1999 / 100)
     (by with_unfolding_all rfl) rfl⟩

/-- C3 counterexample: first GET 403, retry succeeds with a body whose
JSON-LD block parses to `[]`.  The claim says a success on the retry
yields a normal outcome and never an exception; instead the `IndexError`
raised by `data[0]` during extraction propagates out of `fetch_price`,
because the retry handler catches only `RequestException`. -/
theorem C3_counterexample :
    fetch_price (.status 403) (.ok ⟨[], none, some (.parsed (.arr [])), none, []⟩) =
      .error .indexError := by
  with_unfolding_all rfl

/-- Header-trace evaluation for an error-status first response. -/
theorem fetch_requests_status_eval (code : Nat) (choice : Fin 3) :
    fetch_requests (.status code) choice =
      if code = 403 then [baseline_headers, get_random_headers choice]
      else [baseline_headers] := rfl

/-- C3 amended: a first GET returning exactly 403 triggers exactly one
retry with the rotated fuller header set; a success on the retry yields
the normal outcome determined by extraction *provided extraction does
not raise* (a pathological JSON-LD body makes the exception propagate —
see the counterexample); a second 403 or any other failure status or
transport error on the retry yields the bypass-labelled error outcome;
and any non-403 failure status on the first GET fails immediately with
the plain HTTP-error outcome and no retry. -/
theorem C3_retry_protocol :
    (∀ d, extract_price d = .ok none →
      fetch_price (.status 403) (.ok d) =
        .ok (none, some "Price not found on the page or below 1.01 euro")) ∧
    (∀ d p, extract_price d = .ok (some p) →
      fetch_price (.status 403) (.ok d) = .ok (some p, none)) ∧
    (∀ code2, fetch_price (.status 403) (.status code2) =
      .ok (none, some ("Error fetching URL (with bypass): " ++ httpErrMsg code2))) ∧
    (∀ msg, fetch_price (.status 403) (.transport msg) =
      .ok (none, some ("Error fetching URL (with bypass): " ++ msg))) ∧
    (∀ code r2 choice, code ≠ 403 →
      fetch_price (.status code) r2 =
        .ok (none, some ("Error fetching URL: " ++ httpErrMsg code)) ∧
      fetch_requests (.status code) choice = [baseline_headers]) ∧
    (∀ choice, fetch_requests (.status 403) choice =
        [baseline_headers, get_random_headers choice] ∧
      (get_random_headers choice).map Prod.fst =
        ["User-Agent", "Accept", "Accept-Language", "Referer", "DNT", "Connection",
         "Upgrade-Insecure-Requests"] ∧
      baseline_headers.map Prod.fst = ["User-Agent"]) := by
  refine ⟨?_, ?_, fetch_price_retry_status_eval, fetch_price_retry_transport_eval,
    ?_, ?_⟩
  · intro d hd
    rw [fetch_price_retry_ok_eval, hd]
  · intro d p hd
    rw [fetch_price_retry_ok_eval, hd]
  · intro code r2 choice hc
    exact ⟨fetch_price_other_status_eval code r2 hc,
      by rw [fetch_requests_status_eval, if_neg hc]⟩
  · intro choice
    exact ⟨by rw [fetch_requests_status_eval, if_pos rfl], rfl, rfl⟩

/-- C3 witness: a first response of 404 fails at once with the plain
HTTP-error outcome and sends only the baseline header set. -/
theorem C3_witness :
    (404 ≠ 403) ∧
    fetch_price (.status 404) (.transport "unused") =
      .ok (none, some ("Error fetching URL: " ++ httpErrMsg 404)) ∧
    fetch_requests (.status 404) 0 = [baseline_headers] :=
  ⟨by decide,
   (C3_retry_protocol.2.2.2.2.1 404 (.transport "unused") 0 (by decide)).1,
   (C3_retry_protocol.2.2.2.2.1 404 (.transport "unused") 0 (by decide)).2⟩

/-- C7 counterexample: first GET 403, retry succeeds with a body whose
JSON-LD root is an object whose `offers` value is the number `5`.  Then
`"price" in 5` raises `TypeError`, which the retry handler does not
catch: `fetch_price` ends in an exception instead of a (price, error)
pair — refuting the claim that it always terminates with such a pair. -/
theorem C7_counterexample :
    fetch_price (.status 403)
        (.ok ⟨[], none, some (.parsed (.obj [("offers", .num 5)])), none, []⟩) =
      .error .typeError := by
  with_unfolding_all rfl

/-- C7 amended: whenever `fetch_price` returns, exactly one of price and
error is set; every transport-level exception — on the first attempt or
on the 403 retry — is caught and reported as an error outcome; and on a
successful first GET `fetch_price` always returns (even an extraction
exception is caught there by the blanket handler).  The only uncaught
path is an extraction exception on the 403-retry body (see the
counterexample). -/
theorem C7_outcome_invariant :
    (∀ r1 r2 p e, fetch_price r1 r2 = .ok (p, e) →
      ((∃ q, p = some q) ∧ e = none) ∨ (p = none ∧ ∃ m, e = some m)) ∧
    (∀ msg r2, fetch_price (.transport msg) r2 =
      .ok (none, some ("Unexpected error: " ++ msg))) ∧
    (∀ msg, fetch_price (.status 403) (.transport msg) =
      .ok (none, some ("Error fetching URL (with bypass): " ++ msg))) ∧
    (∀ d r2, ∃ pr, fetch_price (.ok d) r2 = .ok pr) := by
  refine ⟨?_, fetch_price_transport_eval, fetch_price_retry_transport_eval, ?_⟩
  · intro r1 r2 p e h
    cases r1 with
    | ok body =>
        rw [fetch_price_ok_eval] at h
        rcases hx : extract_price body with e0 | r0
        · rw [hx] at h
          injection Except.ok.inj h with hp he
          subst hp; subst he
          exact Or.inr ⟨rfl, _, rfl⟩
        · rcases r0 with _ | p0
          · rw [hx] at h
            injection Except.ok.inj h with hp he
            subst hp; subst he
            exact Or.inr ⟨rfl, _, rfl⟩
          · rw [hx] at h
            injection Except.ok.inj h with hp he
            subst hp; subst he
            exact Or.inl ⟨⟨p0, rfl⟩, rfl⟩
    | status code =>
        by_cases hc : code = 403
        · subst hc
          cases r2 with
          | ok body =>
              rw [fetch_price_retry_ok_eval] at h
              rcases hx : extract_price body with e0 | r0
              · rw [hx] at h; exact Except.noConfusion h
              · rcases r0 with _ | p0
                · rw [hx] at h
                  injection Except.ok.inj h with hp he
                  subst hp; subst he
                  exact Or.inr ⟨rfl, _, rfl⟩
                · rw [hx] at h
                  injection Except.ok.inj h with hp he
                  subst hp; subst he
                  exact Or.inl ⟨⟨p0, rfl⟩, rfl⟩
          | status code2 =>
              rw [fetch_price_retry_status_eval] at h
              injection Except.ok.inj h with hp he
              subst hp; subst he
              exact Or.inr ⟨rfl, _, rfl⟩
          | transport msg =>
              rw [fetch_price_retry_transport_eval] at h
              injection Except.ok.inj h with hp he
              subst hp; subst he
              exact Or.inr ⟨rfl, _, rfl⟩
        · rw [fetch_price_other_status_eval code r2 hc] at h
          injection Except.ok.inj h with hp he
          subst hp; subst he
          exact Or.inr ⟨rfl, _, rfl⟩
    | transport msg =>
        rw [fetch_price_transport_eval] at h
        injection Except.ok.inj h with hp he
        subst hp; subst he
        exact Or.inr ⟨rfl, _, rfl⟩
  · intro d r2
    rw [fetch_price_ok_eval]
    rcases hx : extract_price d with e0 | r0
    · exact ⟨_, rfl⟩
    · rcases r0 with _ | p0 <;> exact ⟨_, rfl⟩

/-- C7 witness: a DNS-style transport failure produces an error-only
outcome, satisfying the exactly-one-set invariant. -/
theorem C7_witness :
    fetch_price (.transport "DNS failure") (.transport "DNS failure") =
      .ok (none, some "Unexpected error: DNS failure") ∧
    (((∃ q, (none : Option ℚ) = some q) ∧
        (some "Unexpected error: DNS failure" : Option String) = none) ∨
      ((none : Option ℚ) = none ∧
        ∃ m, (some "Unexpected error: DNS failure" : Option String) = some m)) :=
  ⟨by with_unfolding_all rfl,
   C7_outcome_invariant.1 (.transport "DNS failure") (.transport "DNS failure")
     none (some "Unexpected error: DNS failure") (by with_unfolding_all rfl)⟩

/-- `buildLines` succeeds on aligned lists and its two accumulators are
exactly the counts of strictly-cheaper and equal competitors. -/
theorem buildLines_ok (own : ℚ) :
    ∀ (comps : List (String × Option ℚ)) (errs : List (String × Option String)),
      comps.length ≤ errs.length →
      ∃ ls, buildLines own comps errs =
        .ok (ls, comps.countP (cheaperB own), comps.countP (equalB own)) := by
  intro comps
  induction comps with
  | nil => exact fun errs _ => ⟨[], rfl⟩
  | cons x rest ih =>
      rcases x with ⟨u, px⟩
      rcases px with _ | p
      · intro errs hlen
        cases errs with
        | nil => simp at hlen
        | cons e0 erest =>
            rcases e0 with ⟨ue, ee⟩
            obtain ⟨ls, hls⟩ := ih erest (by simpa using Nat.le_of_succ_le_succ hlen)
            refine ⟨.fetchFailed ee :: ls, ?_⟩
            simp only [buildLines, hls]
            simp [List.countP_cons, cheaperB, equalB]
      · intro errs hlen
        have hlen2 : rest.length ≤ errs.tail.length := by
          cases errs with
          | nil => simp at hlen
          | cons e0 erest => simpa using Nat.le_of_succ_le_succ hlen
        obtain ⟨ls, hls⟩ := ih errs.tail hlen2
        rcases lt_trichotomy own p with hlt | heq | hgt
        · refine ⟨.priced p .cheaper ((own - p) / p * 100) :: ls, ?_⟩
          simp only [buildLines, hls]
          rw [if_neg (by rw [sub_pos]; exact not_lt.mpr hlt.le),
            if_pos (by rw [sub_neg]; exact hlt)]
          simp [List.countP_cons, cheaperB, equalB, hlt, ne_of_lt hlt]
        · cases heq
          refine ⟨.priced own .equal ((own - own) / own * 100) :: ls, ?_⟩
          simp only [buildLines, hls]
          rw [if_neg (by simp), if_neg (by simp)]
          simp [List.countP_cons, cheaperB, equalB]
        · refine ⟨.priced p .moreExpensive ((own - p) / p * 100) :: ls, ?_⟩
          simp only [buildLines, hls]
          rw [if_pos (by rw [sub_pos]; exact hgt)]
          simp [List.countP_cons, cheaperB, equalB, not_lt.mpr hgt.le, ne_of_gt hgt]

/-- Counting competitors with a present price equals the length of the
list of valid prices. -/
theorem countP_isSome_eq (comps : List (String × Option ℚ)) :
    comps.countP (fun x => x.2.isSome) = (comps.filterMap (fun x => x.2)).length := by
  induction comps with
  | nil => rfl
  | cons x rest ih =>
      rcases x with ⟨u, px⟩
      rcases px with _ | p <;> simp [List.countP_cons, ih]

/-- The cheaper count over outcomes equals the count over valid prices. -/
theorem countP_cheaperB_eq (own : ℚ) (comps : List (String × Option ℚ)) :
    comps.countP (cheaperB own) =
      (comps.filterMap (fun x => x.2)).countP (fun p => decide (own < p)) := by
  induction comps with
  | nil => rfl
  | cons x rest ih =>
      rcases x with ⟨u, px⟩
      rcases px with _ | p <;> simp [List.countP_cons, cheaperB, ih]

/-- The equal count over outcomes equals the count over valid prices. -/
theorem countP_equalB_eq (own : ℚ) (comps : List (String × Option ℚ)) :
    comps.countP (equalB own) =
      (comps.filterMap (fun x => x.2)).countP (fun p => decide (own = p)) := by
  induction comps with
  | nil => rfl
  | cons x rest ih =>
      rcases x with ⟨u, px⟩
      rcases px with _ | p <;> simp [List.countP_cons, equalB, ih]

/-- Cheaper-or-equal splits into cheaper plus equal (they are disjoint
and exhaust the non-greater cases). -/
theorem countP_le_split (a : ℚ) (l : List ℚ) :
    l.countP (fun p => decide (a ≤ p)) =
      l.countP (fun p => decide (a < p)) + l.countP (fun p => decide (a = p)) := by
  induction l with
  | nil => rfl
  | cons p rest ih =>
      rcases lt_trichotomy a p with hlt | heq | hgt
      · simp [List.countP_cons, ih, hlt, hlt.le, ne_of_lt hlt]
        omega
      · cases heq
        simp [List.countP_cons, ih]
        omega
      · simp [List.countP_cons, ih, not_lt.mpr hgt.le, not_le.mpr hgt, ne_of_gt hgt]

/-- The count-based branch structure of `analyze_results` computes the
quantifier-based aggregate of the spec, on the list of valid prices. -/
theorem aggregate_eq_spec_list (own : ℚ) (vp : List ℚ) :
    (if 0 < vp.length then
       if vp.countP (fun p => decide (own < p)) = vp.length then Aggregate.lowestPrice
       else if vp.countP (fun p => decide (own < p)) +
           vp.countP (fun p => decide (own = p)) = vp.length then .sameOrLower
       else if 0 < vp.countP (fun p => decide (own < p)) then
         .cheaperThan (vp.countP (fun p => decide (own < p))) vp.length
       else .higherThanAll
     else .unableToCompare) = specAggregate own vp := by
  unfold specAggregate
  by_cases h0 : vp.length = 0
  · rw [if_neg (by omega), if_pos h0]
  · rw [if_pos (Nat.pos_of_ne_zero h0), if_neg h0]
    by_cases hall : vp.countP (fun p => decide (own < p)) = vp.length
    · have hallb : vp.all (fun p => decide (own < p)) = true := by
        rw [List.all_eq_true]
        intro x hx
        exact List.countP_eq_length.mp hall x hx
      rw [if_pos hall, if_pos hallb]
    · have hnallb : ¬ vp.all (fun p => decide (own < p)) = true := by
        rw [List.all_eq_true]
        intro hcon
        exact hall (List.countP_eq_length.mpr hcon)
      rw [if_neg hall, if_neg hnallb]
      by_cases hle : vp.countP (fun p => decide (own < p)) +
          vp.countP (fun p => decide (own = p)) = vp.length
      · have hleb : vp.all (fun p => decide (own ≤ p)) = true := by
          have hc : vp.countP (fun p => decide (own ≤ p)) = vp.length := by
            rw [countP_le_split]
            exact hle
          rw [List.all_eq_true]
          exact List.countP_eq_length.mp hc
        rw [if_pos hle, if_pos hleb]
      · have hnleb : ¬ vp.all (fun p => decide (own ≤ p)) = true := by
          rw [List.all_eq_true]
          intro hcon
          apply hle
          rw [← countP_le_split]
          exact List.countP_eq_length.mpr hcon
        rw [if_neg hle, if_neg hnleb]
        by_cases hpos : 0 < vp.countP (fun p => decide (own < p))
        · have hanyb : vp.any (fun p => decide (own < p)) = true := by
            rw [List.any_eq_true]
            exact List.countP_pos_iff.mp hpos
          rw [if_pos hpos, if_pos hanyb]
        · have hnanyb : ¬ vp.any (fun p => decide (own < p)) = true := by
            rw [List.any_eq_true]
            intro hcon
            exact hpos (List.countP_pos_iff.mpr hcon)
          rw [if_neg hpos, if_neg hnanyb]

/-- The same equality, phrased over the outcome list as `analyze_results`
computes it. -/
theorem code_aggregate_eq (own : ℚ) (comps : List (String × Option ℚ)) :
    (if 0 < comps.countP (fun x => x.2.isSome) then
       if comps.countP (cheaperB own) = comps.countP (fun x => x.2.isSome) then
         Aggregate.lowestPrice
       else if comps.countP (cheaperB own) + comps.countP (equalB own) =
           comps.countP (fun x => x.2.isSome) then .sameOrLower
       else if 0 < comps.countP (cheaperB own) then
         .cheaperThan (comps.countP (cheaperB own)) (comps.countP (fun x => x.2.isSome))
       else .higherThanAll
     else .unableToCompare) = specAggregate own (comps.filterMap (fun x => x.2)) := by
  rw [countP_isSome_eq, countP_cheaperB_eq, countP_equalB_eq]
  exact aggregate_eq_spec_list own (comps.filterMap (fun x => x.2))

/-- `analyze_results` with a present own price and aligned lists reports
an analysis whose aggregate is the spec aggregate over the valid
competitor prices. -/
theorem analyze_results_priced_eval (url u0 : String) (own : ℚ) (oe : Option String)
    (comps : List (String × Option ℚ)) (compErrs : List (String × Option String))
    (hlen : comps.length ≤ compErrs.length) :
    ∃ lines, analyze_results url ((u0, some own) :: comps) ((u0, oe) :: compErrs) =
      .ok (.analysis url own lines (specAggregate own (comps.filterMap (fun x => x.2)))) := by
  obtain ⟨ls, hls⟩ := buildLines_ok own comps compErrs hlen
  refine ⟨ls, ?_⟩
  simp only [analyze_results, hls]
  rw [code_aggregate_eq]

/-- C2. With the own price present, the aggregate classification over
competitors with a valid price is: lowest iff own is cheaper than every
valid competitor; else same-or-lower iff cheaper-or-equal to all; else
cheaper-than-K-of-N iff cheaper than at least one; else higher than all;
and with no valid competitor the report is unable-to-compare
(`specAggregate` is that quantifier-based definition).  The quoted
example — own 10.00 against [12.00, 10.00, 9.00] — classifies
per-competitor as [cheaper, equal, more-expensive] with aggregate
"cheaper than 1 of 3". -/
theorem C2_aggregate_classification :
    (∀ (url u0 : String) (own : ℚ) (oe : Option String)
      (comps : List (String × Option ℚ)) (compErrs : List (String × Option String)),
      comps.length ≤ compErrs.length →
      ∃ lines, analyze_results url ((u0, some own) :: comps) ((u0, oe) :: compErrs) =
        .ok (.analysis url own lines
          (specAggregate own (comps.filterMap (fun x => x.2))))) ∧
    analyze_results "own" [("own", some 10), ("c1", some 12), ("c2", some 10), ("c3", some 9)]
        [("own", none), ("c1", none), ("c2", none), ("c3", none)] =
      .ok (.analysis "own" 10
        [.priced 12 .cheaper (-50 / 3), .priced 10 .equal 0, .priced 9 .moreExpensive (100 / 9)]
        (.cheaperThan 1 3)) :=
  ⟨analyze_results_priced_eval, by with_unfolding_all rfl⟩

/-- C2 witness: the universal part applied at a concrete aligned run. -/
theorem C2_witness :
    ([(("c1" : String), (some 12 : Option ℚ))].length ≤
      [(("c1" : String), (none : Option String))].length) ∧
    ∃ lines, analyze_results "u" [("u", some 10), ("c1", some 12)]
        [("u", none), ("c1", none)] =
      .ok (.analysis "u" 10 lines
        (specAggregate 10 ([(("c1" : String), (some 12 : Option ℚ))].filterMap
          (fun x => x.2)))) :=
  ⟨by decide,
   C2_aggregate_classification.1 "u" "u" 10 none [("c1", some 12)] [("c1", none)]
     (by decide)⟩

/-- C6 counterexample: with the own price missing, the report is
*independent of the competitor errors* — two runs that differ only in a
competitor's raw error produce the identical report, so the report
cannot be conveying every competitor fetch attempt's raw error as the
claim states; it carries only the own URL and the own error. -/
theorem C6_counterexample :
    analyze_results "own" [("own", none), ("c1", none)]
        [("own", some "own fetch failed"), ("c1", some "competitor timeout")] =
      analyze_results "own" [("own", none), ("c1", none)]
        [("own", some "own fetch failed"), ("c1", some "competitor DNS failure")] ∧
    analyze_results "own" [("own", none), ("c1", none)]
        [("own", some "own fetch failed"), ("c1", some "competitor timeout")] =
      .ok (.unableToFetchOwn "own" (some "own fetch failed")) :=
  ⟨by with_unfolding_all rfl, by with_unfolding_all rfl⟩

/-- C6 amended: when the own URL's fetch yields no price, the report
states only that the own price could not be fetched together with the
own error, and performs no competitor comparison; competitor fetch
errors are not included in the report (it is independent of them). -/
theorem C6_own_failure_report :
    ∀ (url u1 u2 : String) (oe : Option String)
      (comps : List (String × Option ℚ)) (compErrs : List (String × Option String)),
      analyze_results url ((u1, none) :: comps) ((u2, oe) :: compErrs) =
        .ok (.unableToFetchOwn url oe) :=
  fun _ _ _ _ _ _ => rfl

/-- Peeling one element off a map over `range`. -/
theorem range_map_cons (n : Nat) (f : Nat → ℚ) :
    (List.range (n + 1)).map f = f 0 :: (List.range n).map (fun k => f (k + 1)) := by
  rw [List.range_succ_eq_map, List.map_cons, List.map_map]
  rfl

/-- When every fetch in the competitor loop returns, the loop succeeds
and emits exactly one progress value `(i + 2 + k) / total` per
competitor, in order. -/
theorem compLoop_trace (net : String → HttpResp × HttpResp) (total : ℚ) :
    ∀ (urls : List String) (i : Nat),
      (∀ u ∈ urls, ∃ v, fetchFor net u = .ok v) →
      ∃ res, compLoop net total urls i =
        (.ok res, (List.range urls.length).map
          (fun k => ((i + 2 + k : Nat) : ℚ) / total)) := by
  intro urls
  induction urls with
  | nil => exact fun i _ => ⟨([], []), rfl⟩
  | cons u rest ih =>
      intro i hok
      obtain ⟨⟨p, err⟩, hfetch⟩ := hok u (List.mem_cons_self u rest)
      obtain ⟨res, hres⟩ := ih (i + 1) (fun v hv => hok v (List.mem_cons_of_mem u hv))
      rcases res with ⟨rs, es⟩
      refine ⟨((u, p) :: rs, (u, err) :: es), ?_⟩
      have htr : (((i + 2 : Nat) : ℚ) / total) ::
            (List.range rest.length).map (fun k => ((i + 1 + 2 + k : Nat) : ℚ) / total) =
          (List.range (rest.length + 1)).map (fun k => ((i + 2 + k : Nat) : ℚ) / total) := by
        rw [range_map_cons, List.cons.injEq]
        refine ⟨by norm_num, ?_⟩
        apply List.map_congr_left
        intro k hk
        push_cast
        ring
      simp only [compLoop, hfetch, hres, List.length_cons]
      rw [← htr]

/-- When every fetch returns, the emitted progress sequence is the
initial `0`, then one value `(k + 1) / (n + 1)` per completed URL (the
own URL first), then the final `1.0`. -/
theorem compare_trace (net : String → HttpResp × HttpResp) (product : Product)
    (hok : ∀ u ∈ product.url :: product.competitors, ∃ v, fetchFor net u = .ok v) :
    (compare_prices net product).2 =
      0 :: ((List.range (product.competitors.length + 1)).map
        (fun k => ((k + 1 : Nat) : ℚ) / ((product.competitors.length + 1 : Nat) : ℚ)) ++
        [1]) := by
  obtain ⟨⟨p, err⟩, hfetch⟩ := hok product.url (List.mem_cons_self _ _)
  obtain ⟨res, hres⟩ := compLoop_trace net ((product.competitors.length + 1 : Nat) : ℚ)
    product.competitors 0 (fun v hv => hok v (List.mem_cons_of_mem _ hv))
  rcases res with ⟨rs, es⟩
  have htr : (1 / ((product.competitors.length + 1 : Nat) : ℚ)) ::
        ((List.range product.competitors.length).map
          (fun k => ((0 + 2 + k : Nat) : ℚ) /
            ((product.competitors.length + 1 : Nat) : ℚ)) ++ [1]) =
      (List.range (product.competitors.length + 1)).map
        (fun k => ((k + 1 : Nat) : ℚ) / ((product.competitors.length + 1 : Nat) : ℚ)) ++
        [1] := by
    rw [range_map_cons, List.cons_append, List.cons.injEq]
    refine ⟨by norm_num, ?_⟩
    congr 1
    apply List.map_congr_left
    intro k hk
    push_cast
    ring
  simp only [compare_prices, hfetch, hres]
  rw [← htr]

/-- Every value of the progress closed form lies in `[0, 1]`. -/
theorem trace_mem_bounds (n : Nat) (x : ℚ)
    (hx : x ∈ (0 : ℚ) :: ((List.range (n + 1)).map
      (fun k => ((k + 1 : Nat) : ℚ) / ((n + 1 : Nat) : ℚ)) ++ [1])) :
    0 ≤ x ∧ x ≤ 1 := by
  have htot : (0 : ℚ) < ((n + 1 : Nat) : ℚ) := by exact_mod_cast Nat.succ_pos n
  rcases List.mem_cons.mp hx with rfl | hx2
  · exact ⟨le_refl 0, by norm_num⟩
  rcases List.mem_append.mp hx2 with hx3 | hx4
  · obtain ⟨k, hk, rfl⟩ := List.mem_map.mp hx3
    have hk2 : k < n + 1 := List.mem_range.mp hk
    constructor
    · positivity
    · rw [div_le_one htot]
      exact_mod_cast Nat.succ_le_of_lt hk2
  · rw [List.mem_singleton] at hx4
    subst hx4
    exact ⟨by norm_num, le_refl 1⟩

/-- The progress closed form is monotonically non-decreasing. -/
theorem trace_chain (n : Nat) :
    List.Chain' (fun a b => a ≤ b) ((0 : ℚ) :: ((List.range (n + 1)).map
      (fun k => ((k + 1 : Nat) : ℚ) / ((n + 1 : Nat) : ℚ)) ++ [1])) := by
  have htot : (0 : ℚ) < ((n + 1 : Nat) : ℚ) := by exact_mod_cast Nat.succ_pos n
  rw [List.chain'_cons']
  constructor
  · intro y hy
    rw [range_map_cons, List.cons_append, List.head?_cons, Option.mem_some_iff] at hy
    subst hy
    positivity
  · rw [List.chain'_append]
    refine ⟨?_, List.chain'_singleton _, ?_⟩
    · rw [List.chain'_map, List.chain'_range_succ]
      intro m hm
      exact (div_le_div_iff_of_pos_right htot).mpr (by exact_mod_cast Nat.le_succ (m + 1))
    · intro x hx y hy
      rw [List.head?_cons, Option.mem_some_iff] at hy
      subst hy
      rw [List.range_succ, List.map_append, List.map_singleton, List.getLast?_concat,
        Option.mem_some_iff] at hx
      subst hx
      rw [div_self (ne_of_gt htot)]

/-- C10 counterexample: one competitor, all fetches failing at the
transport level (so every fetch still returns an outcome).  `compare`
emits 4 progress values — an initial 0 before any URL completes, one per
completed URL, and a final 1.0 — whereas the claim's "once per completed
URL plus a final 1.0" accounts for only 3. -/
theorem C10_counterexample :
    (compare_prices (fun _ => (.transport "down", .transport "down"))
        ⟨"own", ["c1"], 0⟩).2 = [0, 1 / 2, 1, 1] ∧
    ([(0 : ℚ), 1 / 2, 1, 1].length ≠ 2 + 1) :=
  ⟨by with_unfolding_all rfl, by decide⟩

/-- C10 amended: provided every fetch returns an outcome (no extraction
exception aborts the batch), the progress sequence emitted by
`compare_prices` is the initial `0`, then `(k + 1) / (n + 1)` once per
completed URL with the own URL first, then a final `1.0`; it is
contained in `[0, 1]`, monotonically non-decreasing, and ends with
`1.0`. -/
theorem C10_progress_trace (net : String → HttpResp × HttpResp) (product : Product)
    (hok : ∀ u ∈ product.url :: product.competitors, ∃ v, fetchFor net u = .ok v) :
    (compare_prices net product).2 =
      0 :: ((List.range (product.competitors.length + 1)).map
        (fun k => ((k + 1 : Nat) : ℚ) / ((product.competitors.length + 1 : Nat) : ℚ)) ++
        [1]) ∧
    (∀ x ∈ (compare_prices net product).2, 0 ≤ x ∧ x ≤ 1) ∧
    List.Chain' (fun a b => a ≤ b) (compare_prices net product).2 ∧
    ∃ t, (compare_prices net product).2 = t ++ [(1 : ℚ)] := by
  have hmain := compare_trace net product hok
  refine ⟨hmain, ?_, ?_, ?_⟩
  · rw [hmain]
    exact fun x hx => trace_mem_bounds product.competitors.length x hx
  · rw [hmain]
    exact trace_chain product.competitors.length
  · rw [hmain]
    exact ⟨0 :: (List.range (product.competitors.length + 1)).map
      (fun k => ((k + 1 : Nat) : ℚ) / ((product.competitors.length + 1 : Nat) : ℚ)),
      by simp⟩

/-- C10 witness: the amended trace shape at a concrete run whose fetches
all return transport-error outcomes. -/
theorem C10_witness :
    (∀ u ∈ ("own" :: ["c1"] : List String), ∃ v,
      fetchFor (fun _ => (.transport "down", .transport "down")) u = .ok v) ∧
    (compare_prices (fun _ => (.transport "down", .transport "down"))
        ⟨"own", ["c1"], 0⟩).2 =
      0 :: ((List.range 2).map (fun k => ((k + 1 : Nat) : ℚ) / ((2 : Nat) : ℚ)) ++ [1]) :=
  ⟨fun u _ => ⟨(none, some "Unexpected error: down"), by with_unfolding_all rfl⟩,
   (C10_progress_trace (fun _ => (.transport "down", .transport "down"))
     ⟨"own", ["c1"], 0⟩
     (fun u _ => ⟨(none, some "Unexpected error: down"), by with_unfolding_all rfl⟩)).1⟩

end PrijsVergelijker
